import Mathlib

/-!
Verification of the MCP-Task-Messager task resolution and card rendering engine.

The Python sources (`task_messager/models.py`, `core.py`, `formatter.py`,
`server.py`) are shallowly embedded below: strings are Lean `String`s, the
Python string primitives used by the code (`str.strip`, `str.split(",")`,
`str.title`, `str.lower`, `str.rstrip`, `html.escape`) are modelled
explicitly on the character-list view, fallible validation is `Option`, and
the webhook transport is an explicit outcome parameter together with a flag
recording whether the network was consulted.
-/

namespace TaskMessager

/-- Characters removed by Python `str.strip()` with no argument (the ASCII
whitespace subset; the code base only ever meets these). -/
def pyIsSpace (c : Char) : Bool :=
  c = ' ' || c = '\t' || c = '\n' || c = '\r' || c = '\x0b' || c = '\x0c'

/-- Remove the longest suffix of characters satisfying `p` (Python `rstrip`). -/
def rstripWhileL (p : Char → Bool) (l : List Char) : List Char :=
  (l.reverse.dropWhile p).reverse

/-- Python `str.strip()` on the character-list view. -/
def pyStripL (l : List Char) : List Char :=
  rstripWhileL pyIsSpace (l.dropWhile pyIsSpace)

/-- Python `str.strip()`. -/
def pyStrip (s : String) : String := ⟨pyStripL s.data⟩

/-- Python `str.split(",")` on the character-list view: split at every comma,
keeping empty pieces (so the result is always non-empty). -/
def splitCommaL : List Char → List (List Char)
  | [] => [[]]
  | c :: rest =>
    let r := splitCommaL rest
    if c = ',' then [] :: r
    else
      match r with
      | [] => [[c]]
      | h :: t => (c :: h) :: t

/-- Python `str.split(",")`. -/
def pySplitComma (s : String) : List String := (splitCommaL s.data).map String.mk

/-- Python `str.title()` for the ASCII alphabet: the first cased character of
every alphabetic run is upper-cased, the following ones lower-cased.  The
`Bool` argument records whether the previous character was alphabetic. -/
def pyTitleAux : Bool → List Char → List Char
  | _, [] => []
  | prevAlpha, c :: rest =>
    if c.isAlpha then
      (if prevAlpha then c.toLower else c.toUpper) :: pyTitleAux true rest
    else
      c :: pyTitleAux false rest

/-- Python `str.title()` (ASCII model; non-ASCII characters pass through). -/
def pyTitle (s : String) : String := ⟨pyTitleAux false s.data⟩

/-- Python `str.lower()` on one character, exact on the repertoire this code
handles (ASCII plus the Turkish alphabet): the capital dotted `'İ'` (U+0130)
lowercases to the two code points `i` + combining dot above (U+0307), the
other Turkish capitals map to their lowercase forms, and the remaining
characters go through the ASCII lowering (so ASCII `'I'` gives plain `'i'`,
and lowercase letters, `'ı'` included, pass through). -/
def pyLowerChar (c : Char) : List Char :=
  if c = 'İ' then ['i', '\u0307']
  else if c = 'Ç' then ['ç']
  else if c = 'Ğ' then ['ğ']
  else if c = 'Ö' then ['ö']
  else if c = 'Ş' then ['ş']
  else if c = 'Ü' then ['ü']
  else [c.toLower]

/-- The character sequence of Python `str.lower()`, used for the
case-insensitive suffix comparison of `format_title`
(`action.lower().endswith(suffix.lower())`). -/
def lowerData (s : String) : List Char := (s.data.map pyLowerChar).flatten

/-- The per-character case folding performed by `re.IGNORECASE` matching of
a literal pattern: the *simple* lowercase mapping (so `'İ'` folds to plain
`'i'`, unlike `str.lower`'s two-character expansion), combined with the sre
equivalence class that identifies `i` with the dotless `'ı'`.  Hence
`İ ≡ I ≡ i ≡ ı`, and the Turkish capitals fold to their lowercase forms. -/
def reFoldChar (c : Char) : Char :=
  if c = 'İ' then 'i'
  else if c = 'ı' then 'i'
  else if c = 'Ç' then 'ç'
  else if c = 'Ğ' then 'ğ'
  else if c = 'Ö' then 'ö'
  else if c = 'Ş' then 'ş'
  else if c = 'Ü' then 'ü'
  else c.toLower

/-- Python `html.escape(s)` (with the default `quote=True`): escape
`&`, `<`, `>`, `"` and the apostrophe.  The sequential `str.replace` calls of
the library function are equivalent to this character-wise expansion. -/
def htmlEscapeChar (c : Char) : List Char :=
  if c = '&' then ['&', 'a', 'm', 'p', ';']
  else if c = '<' then ['&', 'l', 't', ';']
  else if c = '>' then ['&', 'g', 't', ';']
  else if c = '"' then ['&', 'q', 'u', 'o', 't', ';']
  else if c = '\'' then ['&', '#', 'x', '2', '7', ';']
  else [c]

/-- Python `html.escape`. -/
def htmlEscape (s : String) : String := ⟨(s.data.map htmlEscapeChar).flatten⟩

/-- Substring test (`needle in hay` in Python), decidable by enumeration of
the start position. -/
def containsSub (hay needle : String) : Bool :=
  (List.range (hay.data.length + 1)).any (fun i => needle.data.isPrefixOf (hay.data.drop i))

/-- `models.AnalysisStep`: one raw checklist entry of the Domain Catalog. -/
structure AnalysisStep where
  title : String
  detail : String
  deriving Repr, DecidableEq

/-- `models.Domain`: the investigation template of one domain. -/
structure Domain where
  label : String
  analysis_steps : List AnalysisStep
  acceptance_criteria : List String
  deriving Repr, DecidableEq

/-- The `general` entry of `core.DOMAINS` (also the fallback template used by
`SendMessageInput.resolved_domain`). -/
def generalDomain : Domain where
  label := "Genel"
  analysis_steps := [
    ⟨"Sorgulama", "İletilen bilgiler kullanılarak mevcut durum ve bağlam netleştirilir."⟩,
    ⟨"Log Analizi", "İlgili sistem loglarından hata ve anomaliler incelenir."⟩,
    ⟨"Bağımlılık Kontrolü", "Üçüncü taraf servisler ve entegrasyonlar sağlık durumu açısından değerlendirilir."⟩,
    ⟨"Bulgu Paylaşımı", "Tespit edilen anomali veya çözüm önerisi teknik dille raporlanır."⟩]
  acceptance_criteria := [
    "Sorunun kapsamı ve etki alanı belirlenmiştir.",
    "Kök neden (kullanıcı hatası mı, yazılım bug'ı mı, altyapı mı) netleştirilmiştir.",
    "Analiz sonucu ve çözüm önerisi talep sahibine iletilmiştir."]

/-- `core.DOMAINS`: the static Domain Catalog, as an insertion-ordered
association list (Python dicts preserve insertion order). -/
def DOMAINS : List (String × Domain) := [
  ("backend", {
    label := "Backend"
    analysis_steps := [
      ⟨"API / Endpoint İnceleme", "İlgili endpoint'in request/response logları ve HTTP durum kodları incelenir."⟩,
      ⟨"Veritabanı Sorgusu", "Yavaş veya hatalı sorgular EXPLAIN/ANALYZE ile analiz edilir; index kullanımı kontrol edilir."⟩,
      ⟨"Kuyruk & Async İşlem", "Message queue (SQS, RabbitMQ vb.) backlog, dead-letter kayıtları ve consumer hataları gözden geçirilir."⟩,
      ⟨"Servis Bağımlılıkları", "Downstream servislerin sağlık durumu (health-check) ve timeout değerleri doğrulanır."⟩,
      ⟨"Bulgu Paylaşımı", "Kök neden ve önerilen düzeltme teknik dille raporlanır."⟩]
    acceptance_criteria := [
      "Hatalı endpoint veya servis tespit edilmiş ve logları alınmıştır.",
      "Veritabanı tarafında anomali olup olmadığı netleştirilmiştir.",
      "Sorunun kaynağı (kod hatası, config, altyapı) belirlenmiştir.",
      "Düzeltme önerisi veya geçici workaround talep sahibine iletilmiştir."] }),
  ("frontend", {
    label := "Frontend"
    analysis_steps := [
      ⟨"Tarayıcı & Ortam Tespiti", "Sorunun hangi tarayıcı/versiyon ve işletim sisteminde oluştuğu belirlenir."⟩,
      ⟨"Console & Network İnceleme", "DevTools console hataları ve başarısız network istekleri (4xx/5xx) analiz edilir."⟩,
      ⟨"State & Render Kontrolü", "Bileşen state'i, props akışı ve gereksiz re-render'lar React/Vue DevTools ile incelenir."⟩,
      ⟨"Performans Profili", "Lighthouse veya DevTools Performance sekmesiyle LCP, CLS, FID metrikleri ölçülür."⟩,
      ⟨"Bulgu Paylaşımı", "Reproducing adımları ve ekran görüntüleriyle birlikte rapor hazırlanır."⟩]
    acceptance_criteria := [
      "Sorun belirli tarayıcı/cihaz kombinasyonunda tekrarlanabilir hale getirilmiştir.",
      "Console hatası veya network isteği kök nedeni tespit edilmiştir.",
      "Düzeltme PR'ı açılmış ya da geçici CSS/JS fix uygulanmıştır.",
      "Analiz raporu ve ekran görüntüleri talep sahibine iletilmiştir."] }),
  ("devops", {
    label := "DevOps / Altyapı"
    analysis_steps := [
      ⟨"Pipeline & Build İnceleme", "CI/CD pipeline logları (GitHub Actions, GitLab CI vb.) adım adım incelenir; hatalı stage belirlenir."⟩,
      ⟨"Container & Orchestration", "Docker container logları, exit code'lar ve restart politikası kontrol edilir."⟩,
      ⟨"Altyapı Kaynakları", "CPU, bellek, disk ve ağ metrikleri (CloudWatch, Grafana vb.) anomali açısından incelenir."⟩,
      ⟨"Güvenlik & Erişim", "IAM izinleri, Security Group kuralları ve secret/env değişkenleri doğrulanır."⟩,
      ⟨"Bulgu Paylaşımı", "RCA (Root Cause Analysis) ve iyileştirme önerisi runbook formatında paylaşılır."⟩]
    acceptance_criteria := [
      "Pipeline veya deployment hatası tam log çıktısıyla belgelenmiştir.",
      "Altyapı kaynak tüketimi anomalisi tespit edilmiş veya dışlanmıştır.",
      "Güvenlik açığı veya yanlış config varsa düzeltilmiş ya da bilet açılmıştır.",
      "Servis başarıyla yeniden deploy edilmiş ve sağlık kontrolü geçmiştir."] }),
  ("mobile", {
    label := "Mobil"
    analysis_steps := [
      ⟨"Crash & Hata Raporu", "Firebase Crashlytics / Sentry üzerinden stack trace ve etkilenen cihaz/OS versiyonları incelenir."⟩,
      ⟨"Build & Sürüm Kontrolü", "Uygulama versiyonu, build numarası ve bağımlılık versiyonları doğrulanır."⟩,
      ⟨"API & Bağlantı Testi", "Mobil taraftan gelen API isteklerinin başarı oranı ve timeout değerleri kontrol edilir."⟩,
      ⟨"Store Kural Uyumu", "App Store / Google Play politika değişiklikleri ve inceleme geri bildirimleri gözden geçirilir."⟩,
      ⟨"Bulgu Paylaşımı", "Etkilenen cihaz/OS matrisi ve düzeltme planı talep sahibine iletilir."⟩]
    acceptance_criteria := [
      "Crash stack trace'i alınmış ve kök neden belirlenmiştir.",
      "Sorunun belirli OS versiyonu veya cihazla sınırlı olup olmadığı netleştirilmiştir.",
      "Düzeltme içeren yeni build hazırlanmış veya hotfix planı oluşturulmuştur.",
      "Analiz sonucu talep sahibine ve varsa store ekibine iletilmiştir."] }),
  ("data", {
    label := "Veri / Analytics"
    analysis_steps := [
      ⟨"Pipeline Sağlığı", "ETL/ELT pipeline'ının durum logları (Airflow, dbt vb.) incelenir; başarısız tasklar ve gecikmeler tespit edilir."⟩,
      ⟨"Veri Kalitesi Kontrolü", "Kaynak ve hedef veri setleri arasında null oranları, veri tipleri ve aykırı değerler (outlier) analiz edilir."⟩,
      ⟨"Storage & Bağlantı", "Veritabanı/Data Warehouse bağlantıları, sorgu performansı ve depolama kapasitesi kontrol edilir."⟩,
      ⟨"Raporlama & Metrikleri", "BI araçları (Tableau, Power BI vb.) raporlarının güncel olup olmadığı ve hesaplamaları doğrulanır."⟩,
      ⟨"Bulgu Paylaşımı", "Veri anomalisi ve düzeltme planı veri ekibine ve ilgili paydaşlara iletilir."⟩]
    acceptance_criteria := [
      "Pipeline hatası tam ayrıntılı loglarla belgelenmiştir.",
      "Veri kalitesi sorusu (eksik, yanlış, geç veri) tespit edilmiş veya dışlanmıştır.",
      "Etkilenen raporlar ve metrikler belirlenmiştir.",
      "Düzeltme veya geçici workaround uygulanmış sosyal medya kullanıcılarına bildirilmiştir."] }),
  ("business", {
    label := "İşletme / Proses"
    analysis_steps := [
      ⟨"Gereksinim Analizi", "İstenilen görev, hedef ve başarı ölçütleri paydaşlarla netleştirilir."⟩,
      ⟨"Mevcut Durum Değerlendirmesi", "Mevcut belgeler, süreçler ve altyapı incelenir; boşluklar ve iyileştirme fırsatları tespit edilir."⟩,
      ⟨"Çözüm Tasarımı", "Önerilen yeni belgeler, iş akışları veya araçlar tasarlanır; maliyet-fayda analizi yapılır."⟩,
      ⟨"Uygulama Planı", "Adım adım uygulama takvimi, sorumlu taraflar ve kontrol noktaları tanımlanır."⟩,
      ⟨"Bulgu Paylaşımı", "Özetlenmiş rapor ve uygulanabilir öneriler yöneticilere ve ilgili ekiplere sunulur."⟩]
    acceptance_criteria := [
      "Görev gereksinimleri ve başarı kriterleri yazılı olarak onaylanmıştır.",
      "Mevcut durum analizi tamamlanmış ve iyileştirme alanları belirlenmiştir.",
      "Çözüm önerisi ve uygulama planı hazırlanmıştır.",
      "Plan paydaşlarca gözden geçirilmiş ve kabul edilmiştir."] }),
  ("general", generalDomain)]

/-- The known domain keys, in catalog order. -/
def domainKeys : List String := DOMAINS.map Prod.fst

/-- Look a key up in the catalog (`DOMAINS.get(key)` without the fallback). -/
def lookupDomain (k : String) : Option Domain :=
  (DOMAINS.find? (fun p => p.1 = k)).map Prod.snd

/-- The shared pydantic `non_empty` field validator: strip the value and
reject (raise `ValueError`, here `none`) when it is empty after stripping. -/
def validateField (v : String) : Option String :=
  let t := pyStrip v
  if t = "" then none else some t

/-- `models.SolutionStep`: a validated step of the solution plan. -/
structure SolutionStep where
  title : String
  detail : String
  deriving Repr, DecidableEq

/-- `SolutionStep.model_validate` on a raw title/detail pair: both fields go
through the `non_empty` validator. -/
def SolutionStep.validate (title detail : String) : Option SolutionStep := do
  let t ← validateField title
  let d ← validateField detail
  pure ⟨t, d⟩

/-- The two run-time shapes accepted for the raw `participants` field
(a comma-joined string, or a list of strings). -/
inductive RawParticipants where
  | ofString (s : String)
  | ofList (l : List String)
  deriving Repr, DecidableEq

/-- `SendMessageInput.normalize_task_owner` (mode `before`): keep the first
comma-separated token, stripped; `None` when it is empty, otherwise its
title-cased form. -/
def normalize_task_owner : Option String → Option String
  | none => none
  | some v =>
    let first := pyStrip ((pySplitComma v).headD "")
    if first = "" then none else some (pyTitle first)

/-- `SendMessageInput.normalize_participants` (mode `before`): a string is
comma-split, entries stripped and title-cased, empty entries dropped; a list
keeps its entries stripped, empty ones dropped; an empty result becomes
`None`. -/
def normalize_participants : Option RawParticipants → Option (List String)
  | none => none
  | some (.ofString v) =>
    let parts := ((pySplitComma v).filter (fun p => pyStrip p ≠ "")).map
      (fun p => pyTitle (pyStrip p))
    if parts = [] then none else some parts
  | some (.ofList l) =>
    let cleaned := (l.filter (fun i => pyStrip i ≠ "")).map pyStrip
    if cleaned = [] then none else some cleaned

/-- `SendMessageInput.ensure_no_task_owner_in_participants` (mode `after`):
when both fields are truthy, drop every participant equal to the owner and
turn an emptied list into `None`. -/
def ensure_no_task_owner_in_participants (owner : Option String)
    (parts : Option (List String)) : Option (List String) :=
  match owner, parts with
  | some o, some ps =>
    if o ≠ "" ∧ ps ≠ [] then
      let ps2 := ps.filter (fun p => p ≠ o)
      if ps2 = [] then none else some ps2
    else parts
  | _, _ => parts

/-- `models.SendMessageInput` after validation: the canonical Task Record. -/
structure SendMessageInput where
  title : String
  summary : String
  problem : String
  estimated_duration : String
  domain : String
  task_owner : Option String
  participants : Option (List String)
  analysis_steps : Option (List SolutionStep)
  acceptance_criteria : Option (List String)
  deriving Repr, DecidableEq

/-- Pydantic construction of a `SendMessageInput`: the `non_empty` validator
on the four required fields, the `validate_domain` membership check, the two
`before` normalizers, then the `after` model validator. -/
def SendMessageInput.validate (title summary problem estimated_duration domain : String)
    (task_owner : Option String) (participants : Option RawParticipants)
    (analysis_steps : Option (List SolutionStep))
    (acceptance_criteria : Option (List String)) : Option SendMessageInput :=
  match validateField title, validateField summary, validateField problem,
      validateField estimated_duration with
  | some t, some s, some p, some e =>
    if domain ∈ domainKeys then
      let owner := normalize_task_owner task_owner
      let parts := ensure_no_task_owner_in_participants owner
        (normalize_participants participants)
      some ⟨t, s, p, e, domain, owner, parts, analysis_steps, acceptance_criteria⟩
    else none
  | _, _, _, _ => none

/-- `SendMessageInput.resolved_domain`: catalog lookup with the `general`
fallback. -/
def SendMessageInput.resolved_domain (m : SendMessageInput) : Domain :=
  (lookupDomain m.domain).getD generalDomain

/-- `SendMessageInput.resolved_steps`: caller-supplied steps when the field
is truthy (non-`None`, non-empty), otherwise the domain defaults validated
into `SolutionStep`s. -/
def SendMessageInput.resolved_steps (m : SendMessageInput) : Option (List SolutionStep) :=
  if m.analysis_steps.getD [] ≠ [] then m.analysis_steps
  else m.resolved_domain.analysis_steps.mapM (fun s => SolutionStep.validate s.title s.detail)

/-- `SendMessageInput.resolved_criteria`: caller-supplied criteria when
truthy, otherwise the domain defaults. -/
def SendMessageInput.resolved_criteria (m : SendMessageInput) : List String :=
  if m.acceptance_criteria.getD [] ≠ [] then m.acceptance_criteria.getD []
  else m.resolved_domain.acceptance_criteria

/-- `models.SendMessageResult`: the structured result of a send. -/
structure SendMessageResult where
  success : Bool
  message : String
  http_status : Option Nat
  deriving Repr, DecidableEq

/-- Construction of a `SendMessageResult` through its `non_empty_message`
validator (the message is stripped; an empty one raises). -/
def SendMessageResult.build (success : Bool) (message : String)
    (http_status : Option Nat) : Option SendMessageResult :=
  (validateField message).map (fun msg => ⟨success, msg, http_status⟩)

/-- `formatter.DOMAIN_PREFIX`: domain key to title-prefix label. -/
def domainPrefixTable : List (String × String) := [
  ("backend", "Backend"), ("frontend", "Frontend"), ("devops", "DevOps"),
  ("mobile", "Mobil"), ("data", "Data"), ("business", "Business"),
  ("general", "")]

/-- `formatter._VALID_SUFFIXES`: the canonical future-tense suffixes. -/
def validSuffixes : List String := [
  "Edilecek", "Yapılacak", "Geliştirilecek", "Düzenlenecek", "İncelenecek",
  "Araştırılacak", "Oluşturulacak", "Kaldırılacak", "Güncellenecek",
  "Entegre Edilecek", "Test Edilecek", "Analiz Edilecek"]

/-- The character set of `action.rstrip(".!?;: ")` in `format_title`. -/
def isTrailingPunct (c : Char) : Bool :=
  c = '.' || c = '!' || c = '?' || c = ';' || c = ':' || c = ' '

/-- The first two lines of `format_title`: strip the raw title, then strip
trailing punctuation and spaces. -/
def preprocessAction (raw : String) : String :=
  ⟨rstripWhileL isTrailingPunct (pyStripL raw.data)⟩

/-- Case-insensitive suffix test (`action_lower.endswith(suffix_lower)`). -/
def endsWithCI (action sfx : String) : Bool :=
  (lowerData sfx).isSuffixOf (lowerData action)

/-- The suffix check of `format_title` against `_VALID_SUFFIXES`. -/
def hasValidSuffix (action : String) : Bool :=
  validSuffixes.any (fun sfx => endsWithCI action sfx)

/-- The `$`-anchored literal-pattern match of `re.search(pattern, action,
re.IGNORECASE)`: the folded pattern is a suffix of the folded action. -/
def endsWithRegexCI (action pat : String) : Bool :=
  (pat.data.map reFoldChar).isSuffixOf (action.data.map reFoldChar)

/-- `formatter._nominalize_to_future`'s ordered rewrite table: each rule is a
trailing verbal-noun pattern (the `$`-anchored regex) with its future-tense
replacement. -/
def replacementRules : List (String × String) := [
  ("Geliştirme", "Geliştirilecek"), ("Düzenleme", "Düzenlenecek"),
  ("İnceleme", "İncelenecek"), ("Araştırma", "Araştırılacak"),
  ("Oluşturma", "Oluşturulacak"), ("Kaldırma", "Kaldırılacak"),
  ("Güncelleme", "Güncellenecek"), ("Test Etme", "Test Edilecek"),
  ("Entegrasyon", "Entegre Edilecek"), ("Analiz", "Analiz Edilecek"),
  ("Düzeltme", "Düzeltilecek")]

/-- `formatter._nominalize_to_future`: first rule whose pattern matches the
end of the action (case-insensitively) rewrites the matched span with its
replacement; with no match, `" Yapılacak"` is appended. -/
def nominalize_to_future (action : String) : String :=
  match replacementRules.find? (fun r => endsWithRegexCI action r.1) with
  | some r => ⟨action.data.take (action.data.length - r.1.data.length) ++ r.2.data⟩
  | none => action ++ " Yapılacak"

/-- The prefix-joining tail of `format_title`: the stripped project and the
domain prefix, with empty parts dropped, joined by a space and glued to the
action with `": "` (the action alone when the prefix is empty). -/
def titleJoin (project domain action : String) : String :=
  let dp := ((domainPrefixTable.find? (fun p => p.1 = domain)).map Prod.snd).getD ""
  let parts := [pyStrip project, dp].filter (fun p => p ≠ "")
  let pre := String.intercalate " " parts
  if pre ≠ "" then pre ++ ": " ++ action else action

/-- `formatter.format_title`. -/
def format_title (raw_title project domain : String) : String :=
  let action := preprocessAction raw_title
  titleJoin project domain
    (if hasValidSuffix action then action else nominalize_to_future action)

/-- Modelled from the spec: `SolutionStepSection` is imported by
`formatter.py` from `task_messager.models` but its definition is not among
the sources; per §4.5 it is a numbered solution section with a title and
bullet items. -/
structure SolutionStepSection where
  title : String
  items : List String
  deriving Repr, DecidableEq

/-- Modelled from the spec: `TaskDescription` is imported by `formatter.py`
but not defined among the sources; per §4.5 it carries the summary, the
problem, the rich solution sections and the advantages. -/
structure TaskDescription where
  summary : String
  problem : String
  solution_steps : List SolutionStepSection
  advantages : List String
  deriving Repr, DecidableEq

/-- `formatter.format_summary_block` (identical to
`server._format_summary_block`). -/
def format_summary_block (summary problem : String) : String :=
  "<b>Özet:</b> " ++ htmlEscape summary ++ "<br><br><b>Problem:</b> " ++ htmlEscape problem

/-- `formatter.format_solution_steps_html` (identical to
`server._format_analysis_steps` on validated steps). -/
def format_solution_steps_html (steps : List SolutionStep) : String :=
  String.intercalate "<br>" (steps.map
    (fun st => "• <b>" ++ htmlEscape st.title ++ ":</b> " ++ htmlEscape st.detail))

/-- `formatter.format_rich_solution_steps_html`: numbered section headers
with nested escaped bullet items. -/
def format_rich_solution_steps_html (sections : List SolutionStepSection) : String :=
  String.intercalate "<br>" ((sections.enum.map (fun pair =>
    ("<b>" ++ toString (pair.1 + 1) ++ ". " ++ htmlEscape pair.2.title ++ "</b>") ::
      pair.2.items.map (fun item => "&nbsp;&nbsp;• " ++ htmlEscape item))).flatten)

/-- `formatter.format_advantages_html`. -/
def format_advantages_html (advantages : List String) : String :=
  String.intercalate "<br>" (advantages.map (fun adv => "✓ " ++ htmlEscape adv))

/-- `formatter.format_acceptance_criteria_html` (identical to
`server._format_acceptance_criteria`). -/
def format_acceptance_criteria_html (criteria : List String) : String :=
  String.intercalate "<br>" (criteria.map (fun item => "• " ++ htmlEscape item))

/-- One widget of the wire card: a key/value row or a text paragraph. -/
inductive Widget where
  | keyValue (topLabel content : String)
  | textParagraph (text : String)
  deriving Repr, DecidableEq

/-- One section of the wire card: an optional header and its widgets. -/
structure CardSection where
  header : Option String
  widgets : List Widget
  deriving Repr, DecidableEq

/-- The card header of the wire format. -/
structure CardHeader where
  title : String
  deriving Repr, DecidableEq

/-- One card of the wire format. -/
structure Card where
  header : CardHeader
  sections : List CardSection
  deriving Repr, DecidableEq

/-- The rendered document (`cards` wire payload). -/
structure CardsPayload where
  cards : List Card
  deriving Repr, DecidableEq

/-- `formatter.build_cards_payload` (formatter.py lines 147-215): meta rows
(domain label, duration, owner as `Atanan`, participants), escaped
description block, flat or rich solution section, optional advantages,
acceptance criteria; the card header title is HTML-escaped here. -/
def Formatter.build_cards_payload (data : SendMessageInput)
    (desc : Option TaskDescription) : Option CardsPayload := do
  let domain_label := data.resolved_domain.label
  let meta0 : List Widget := [
    .keyValue "Alan" (htmlEscape domain_label),
    .keyValue "Tahmini Süre" (htmlEscape data.estimated_duration)]
  let meta1 := match data.task_owner with
    | some o => if o ≠ "" then meta0 ++ [.keyValue "Atanan" (htmlEscape o)] else meta0
    | none => meta0
  let meta2 := match data.participants with
    | some ps =>
      if ps ≠ [] then
        meta1 ++ [.keyValue "Katılımcılar" (htmlEscape (String.intercalate ", " ps))]
      else meta1
    | none => meta1
  let summary_text := match desc with
    | some d => format_summary_block d.summary d.problem
    | none => format_summary_block data.summary data.problem
  let solution_text ← match desc with
    | some d =>
      if d.solution_steps ≠ [] then
        pure (format_rich_solution_steps_html d.solution_steps)
      else (data.resolved_steps).map format_solution_steps_html
    | none => (data.resolved_steps).map format_solution_steps_html
  let advSections : List CardSection := match desc with
    | some d =>
      if d.advantages ≠ [] then
        [⟨some "Çözümün Avantajları", [.textParagraph (format_advantages_html d.advantages)]⟩]
      else []
    | none => []
  let sections : List CardSection :=
    [⟨none, meta2⟩,
     ⟨some "Görev Açıklaması", [.textParagraph summary_text]⟩,
     ⟨some "Muhtemel Çözüm", [.textParagraph solution_text]⟩] ++
    advSections ++
    [⟨some "Kabul Kriterleri",
      [.textParagraph (format_acceptance_criteria_html data.resolved_criteria)]⟩]
  pure ⟨[⟨⟨htmlEscape data.title⟩, sections⟩]⟩

/-- `server.build_cards_payload` (server.py lines 75-128): meta rows (domain
label, duration, owner as `Sorumlu`; no participants row), escaped
description, flat solution section, acceptance criteria; the card header
title is `data.title` verbatim, NOT escaped. -/
def Server.build_cards_payload (data : SendMessageInput) : Option CardsPayload := do
  let domain_label := data.resolved_domain.label
  let meta0 : List Widget := [
    .keyValue "Alan" (htmlEscape domain_label),
    .keyValue "Tahmini Süre" (htmlEscape data.estimated_duration)]
  let meta1 := match data.task_owner with
    | some o => if o ≠ "" then meta0 ++ [.keyValue "Sorumlu" (htmlEscape o)] else meta0
    | none => meta0
  let steps ← data.resolved_steps
  let sections : List CardSection :=
    [⟨none, meta1⟩,
     ⟨some "Görev Açıklaması",
      [.textParagraph (format_summary_block data.summary data.problem)]⟩,
     ⟨some "Muhtemel Çözüm", [.textParagraph (format_solution_steps_html steps)]⟩,
     ⟨some "Kabul Kriterleri",
      [.textParagraph (format_acceptance_criteria_html data.resolved_criteria)]⟩]
  pure ⟨[⟨⟨data.title⟩, sections⟩]⟩

/-- What the transport layer would answer if the webhook were posted to: an
HTTP response with a status code and body text, or a transport-level
failure (`httpx.RequestError`). -/
inductive HttpOutcome where
  | response (status : Nat) (text : String)
  | requestError (msg : String)
  deriving Repr, DecidableEq

/-- `httpx.Response.is_success`, the condition under which
`raise_for_status` does not raise: a 2xx status. -/
def is2xx (st : Nat) : Bool := 200 ≤ st && st < 300

/-- `server.post_to_webhook`: the configured URL is stripped; when it is
empty a configuration-error result is returned with no network call
(second component `false`); otherwise the transport outcome is consulted
(second component `true`) and mapped to a result as the source does. -/
def post_to_webhook (envUrl : String) (outcome : HttpOutcome) :
    Option SendMessageResult × Bool :=
  if pyStrip envUrl = "" then
    (SendMessageResult.build false "GOOGLE_CHAT_WEBHOOK_URL is not set" none, false)
  else
    match outcome with
    | .response st text =>
      if is2xx st then
        (SendMessageResult.build true "Message sent" (some st), true)
      else
        (SendMessageResult.build false ("HTTP " ++ toString st ++ ": " ++ text) (some st), true)
    | .requestError msg =>
      (SendMessageResult.build false ("Request error: " ++ msg) none, true)

/-! ## Helper lemmas -/

theorem pyTitleAux_ne_nil {b : Bool} {l : List Char} (h : l ≠ []) :
    pyTitleAux b l ≠ [] := by
  cases l with
  | nil => exact absurd rfl h
  | cons c cs => unfold pyTitleAux; split <;> simp

theorem pyTitle_ne_empty {s : String} (h : s ≠ "") : pyTitle s ≠ "" := by
  intro hc
  apply h
  cases s with
  | mk data =>
    cases data with
    | nil => rfl
    | cons c cs =>
      exact absurd (congrArg String.data hc) (pyTitleAux_ne_nil (by simp))

theorem normalize_task_owner_nonempty {v : Option String} {o : String}
    (h : normalize_task_owner v = some o) : o ≠ "" := by
  cases v with
  | none => simp [normalize_task_owner] at h
  | some s =>
    by_cases hc : pyStrip ((pySplitComma s).headD "") = ""
    · simp only [normalize_task_owner, if_pos hc] at h
      exact Option.noConfusion h
    · simp only [normalize_task_owner, if_neg hc, Option.some.injEq] at h
      rw [← h]
      exact pyTitle_ne_empty hc

theorem normalize_participants_ne_nil {pr : Option RawParticipants}
    {ps : List String} (h : normalize_participants pr = some ps) : ps ≠ [] := by
  match pr with
  | none => simp [normalize_participants] at h
  | some (.ofString v) =>
    by_cases hc : ((pySplitComma v).filter (fun p => pyStrip p ≠ "")).map
        (fun p => pyTitle (pyStrip p)) = []
    · simp only [normalize_participants, if_pos hc] at h
      exact Option.noConfusion h
    · simp only [normalize_participants, if_neg hc, Option.some.injEq] at h
      rw [← h]
      exact hc
  | some (.ofList l) =>
    by_cases hc : (l.filter (fun i => pyStrip i ≠ "")).map pyStrip = []
    · simp only [normalize_participants, if_pos hc] at h
      exact Option.noConfusion h
    · simp only [normalize_participants, if_neg hc, Option.some.injEq] at h
      rw [← h]
      exact hc

theorem validate_eq_some {t s p e d : String} {ow : Option String}
    {pr : Option RawParticipants} {st : Option (List SolutionStep)}
    {cr : Option (List String)} {m : SendMessageInput}
    (hm : SendMessageInput.validate t s p e d ow pr st cr = some m) :
    m.task_owner = normalize_task_owner ow ∧
    m.participants = ensure_no_task_owner_in_participants (normalize_task_owner ow)
      (normalize_participants pr) ∧
    m.domain = d ∧ m.analysis_steps = st ∧ m.acceptance_criteria = cr := by
  unfold SendMessageInput.validate at hm
  split at hm
  · split at hm
    · cases hm
      exact ⟨rfl, rfl, rfl, rfl, rfl⟩
    · exact absurd hm (by simp)
  all_goals exact absurd hm (by simp)

theorem dropWhile_eq_self_of_head {α : Type} (p : α → Bool) (l : List α)
    (h : ∀ c, l.head? = some c → p c = false) : l.dropWhile p = l := by
  cases l with
  | nil => rfl
  | cons a t => simp [List.dropWhile_cons, h a rfl]

theorem head?_dropWhile_not {α : Type} (p : α → Bool) (l : List α) :
    ∀ c, (l.dropWhile p).head? = some c → p c = false := by
  induction l with
  | nil => intro c hc; simp at hc
  | cons a t ih =>
    intro c hc
    by_cases hp : p a
    · rw [List.dropWhile_cons, if_pos hp] at hc
      exact ih c hc
    · rw [List.dropWhile_cons, if_neg hp] at hc
      simp only [List.head?_cons, Option.some.injEq] at hc
      rw [← hc]
      exact Bool.eq_false_iff.mpr hp

theorem rstripWhileL_eq_self {p : Char → Bool} {l : List Char}
    (h : ∀ c, l.getLast? = some c → p c = false) : rstripWhileL p l = l := by
  unfold rstripWhileL
  rw [dropWhile_eq_self_of_head p l.reverse
    (fun c hc => h c (by rwa [List.head?_reverse] at hc))]
  exact List.reverse_reverse l

theorem rstripWhileL_isPrefix_self (p : Char → Bool) (l : List Char) :
    rstripWhileL p l <+: l := by
  have h := List.reverse_prefix.mpr (List.dropWhile_suffix (l := l.reverse) p)
  rwa [List.reverse_reverse] at h

theorem prefix_head?_eq {α : Type} {l₁ l₂ : List α} (h : l₁ <+: l₂)
    (hne : l₁ ≠ []) : l₂.head? = l₁.head? := by
  obtain ⟨t, rfl⟩ := h
  cases l₁ with
  | nil => exact absurd rfl hne
  | cons a s => rfl

theorem suffix_getLast?_eq {α : Type} {l₁ l₂ : List α} (h : l₁ <:+ l₂)
    (hne : l₁ ≠ []) : l₂.getLast? = l₁.getLast? := by
  obtain ⟨t, rfl⟩ := h
  exact List.getLast?_append_of_ne_nil t hne

theorem pyLowerChar_ne_nil (c : Char) : pyLowerChar c ≠ [] := by
  unfold pyLowerChar
  repeat' split
  all_goals exact List.cons_ne_nil _ _

theorem flatten_map_ne_nil {f : Char → List Char} (hf : ∀ c, f c ≠ [])
    (a : Char) (t : List Char) : ((a :: t).map f).flatten ≠ [] := by
  show f a ++ (t.map f).flatten ≠ []
  intro hx
  exact hf a (List.append_eq_nil.mp hx).1

theorem getLast?_flatten_map {f : Char → List Char} (hf : ∀ c, f c ≠ []) :
    ∀ (l : List Char) (lc : Char), l.getLast? = some lc →
      ((l.map f).flatten).getLast? = (f lc).getLast?
  | [], lc, h => by simp at h
  | [a], lc, h => by
    rw [List.getLast?_singleton] at h
    cases h
    show (f a ++ ([] : List Char)).getLast? = (f a).getLast?
    rw [List.append_nil]
  | a :: b :: t, lc, h => by
    have hrec := getLast?_flatten_map hf (b :: t) lc
      (by rwa [List.getLast?_cons_cons] at h)
    show (f a ++ ((b :: t).map f).flatten).getLast? = (f lc).getLast?
    rw [List.getLast?_append_of_ne_nil _ (flatten_map_ne_nil hf b t), hrec]

theorem pyLowerChar_last_k {c : Char}
    (h : (pyLowerChar c).getLast? = some 'k') : c.toLower = 'k' := by
  unfold pyLowerChar at h
  repeat' split at h
  all_goals first
    | exact absurd h (by decide)
    | (rw [List.getLast?_singleton] at h; exact Option.some.inj h)

theorem ends_ci_getLast {a sfx : String} (h : endsWithCI a sfx = true)
    (hk : (lowerData sfx).getLast? = some 'k') :
    ∃ c, a.data.getLast? = some c ∧ Char.toLower c = 'k' := by
  unfold endsWithCI at h
  have hsuf := List.isSuffixOf_iff_suffix.mp h
  have hne : lowerData sfx ≠ [] := by
    intro hcn
    rw [hcn] at hk
    exact Option.noConfusion hk
  have hgl : (lowerData a).getLast? = some 'k' :=
    (suffix_getLast?_eq hsuf hne).trans hk
  cases hlast : a.data.getLast? with
  | none =>
    have hda : a.data = [] := List.getLast?_eq_none_iff.mp hlast
    have : lowerData a = [] := by
      unfold lowerData
      rw [hda]
      rfl
    rw [this] at hgl
    exact Option.noConfusion hgl
  | some c =>
    refine ⟨c, rfl, pyLowerChar_last_k ?_⟩
    have := getLast?_flatten_map pyLowerChar_ne_nil a.data c hlast
    unfold lowerData at hgl
    rw [this] at hgl
    exact hgl

theorem hasValidSuffix_getLast {a : String} (h : hasValidSuffix a = true) :
    ∃ c, a.data.getLast? = some c ∧ Char.toLower c = 'k' := by
  unfold hasValidSuffix at h
  rw [List.any_eq_true] at h
  obtain ⟨sfx, hmem, hci⟩ := h
  fin_cases hmem <;> exact ends_ci_getLast hci (by decide)

theorem toLower_k_not_space {c : Char} (h : c.toLower = 'k') :
    pyIsSpace c = false := by
  by_contra hsp
  rw [Bool.not_eq_false] at hsp
  simp only [pyIsSpace, Bool.or_eq_true, decide_eq_true_eq] at hsp
  rcases hsp with ((((rfl | rfl) | rfl) | rfl) | rfl) | rfl <;>
    exact absurd h (by decide)

theorem toLower_k_not_punct {c : Char} (h : c.toLower = 'k') :
    isTrailingPunct c = false := by
  by_contra hsp
  rw [Bool.not_eq_false] at hsp
  simp only [isTrailingPunct, Bool.or_eq_true, decide_eq_true_eq] at hsp
  rcases hsp with ((((rfl | rfl) | rfl) | rfl) | rfl) | rfl <;>
    exact absurd h (by decide)

theorem preprocessAction_head (raw : String) :
    ∀ c, (preprocessAction raw).data.head? = some c → pyIsSpace c = false := by
  intro c hc
  have hdata : (preprocessAction raw).data
      = rstripWhileL isTrailingPunct (pyStripL raw.data) := rfl
  have hpre : (preprocessAction raw).data <+: raw.data.dropWhile pyIsSpace := by
    rw [hdata]
    exact (rstripWhileL_isPrefix_self _ _).trans (rstripWhileL_isPrefix_self _ _)
  have hne : (preprocessAction raw).data ≠ [] := by
    intro hx
    rw [hx] at hc
    exact Option.noConfusion hc
  have hh := prefix_head?_eq hpre hne
  exact head?_dropWhile_not pyIsSpace raw.data c (by rw [hh]; exact hc)

theorem preprocessAction_idem {raw : String}
    (h : hasValidSuffix (preprocessAction raw) = true) :
    preprocessAction (preprocessAction raw) = preprocessAction raw := by
  obtain ⟨c, hgl, hk⟩ := hasValidSuffix_getLast h
  have hlast : ∀ x, (preprocessAction raw).data.getLast? = some x →
      pyIsSpace x = false ∧ isTrailingPunct x = false := by
    intro x hx
    rw [hgl] at hx
    cases hx
    exact ⟨toLower_k_not_space hk, toLower_k_not_punct hk⟩
  have h1 : (preprocessAction raw).data.dropWhile pyIsSpace
      = (preprocessAction raw).data :=
    dropWhile_eq_self_of_head _ _ (preprocessAction_head raw)
  have h2 : rstripWhileL pyIsSpace (preprocessAction raw).data
      = (preprocessAction raw).data :=
    rstripWhileL_eq_self (fun x hx => (hlast x hx).1)
  have h3 : rstripWhileL isTrailingPunct (preprocessAction raw).data
      = (preprocessAction raw).data :=
    rstripWhileL_eq_self (fun x hx => (hlast x hx).2)
  show (⟨rstripWhileL isTrailingPunct (pyStripL (preprocessAction raw).data)⟩ :
    String) = preprocessAction raw
  unfold pyStripL
  rw [h1, h2, h3]

theorem dropWhile_append_of_ne_nil {α : Type} {p : α → Bool} {l₁ : List α}
    (l₂ : List α) (h : l₁.dropWhile p ≠ []) :
    (l₁ ++ l₂).dropWhile p = l₁.dropWhile p ++ l₂ := by
  induction l₁ with
  | nil => exact absurd rfl h
  | cons a t ih =>
    by_cases hp : p a
    · rw [List.dropWhile_cons, if_pos hp] at h
      rw [List.cons_append, List.dropWhile_cons, if_pos hp,
        List.dropWhile_cons, if_pos hp]
      exact ih h
    · rw [List.cons_append, List.dropWhile_cons, if_neg hp,
        List.dropWhile_cons, if_neg hp, List.cons_append]

theorem dropWhile_append_of_eq_nil {α : Type} {p : α → Bool} {l₁ : List α}
    (l₂ : List α) (h : l₁.dropWhile p = []) :
    (l₁ ++ l₂).dropWhile p = l₂.dropWhile p := by
  induction l₁ with
  | nil => rfl
  | cons a t ih =>
    rw [List.dropWhile_cons] at h
    by_cases hp : p a
    · rw [if_pos hp] at h
      rw [List.cons_append, List.dropWhile_cons, if_pos hp]
      exact ih h
    · rw [if_neg hp] at h
      exact absurd h (by simp)

theorem rstripWhileL_append_of_ne_nil {p : Char → Bool} (x : List Char)
    {y : List Char} (h : rstripWhileL p y ≠ []) :
    rstripWhileL p (x ++ y) = x ++ rstripWhileL p y := by
  have hdw : y.reverse.dropWhile p ≠ [] := by
    intro hc
    apply h
    unfold rstripWhileL
    rw [hc]
    rfl
  unfold rstripWhileL
  rw [List.reverse_append, dropWhile_append_of_ne_nil x.reverse hdw,
    List.reverse_append, List.reverse_reverse]

theorem rstripWhileL_append_of_eq_nil {p : Char → Bool} (x : List Char)
    {y : List Char} (h : rstripWhileL p y = []) :
    rstripWhileL p (x ++ y) = rstripWhileL p x := by
  have hdw : y.reverse.dropWhile p = [] := by
    have := congrArg List.reverse h
    rwa [rstripWhileL, List.reverse_reverse, List.reverse_nil] at this
  unfold rstripWhileL
  rw [List.reverse_append, dropWhile_append_of_eq_nil x.reverse hdw]

theorem containsSub_at (pre mid post : List Char) :
    containsSub ⟨pre ++ mid ++ post⟩ ⟨mid⟩ = true := by
  show (List.range ((pre ++ mid ++ post).length + 1)).any
    (fun i => mid.isPrefixOf ((pre ++ mid ++ post).drop i)) = true
  rw [List.any_eq_true]
  refine ⟨pre.length, List.mem_range.mpr ?_, ?_⟩
  · rw [List.length_append, List.length_append]
    omega
  · show mid.isPrefixOf ((pre ++ mid ++ post).drop pre.length) = true
    rw [List.append_assoc, List.drop_left]
    exact List.isPrefixOf_iff_prefix.mpr ⟨post, rfl⟩

theorem pyStripL_eq_self_parts {l : List Char} (h : pyStripL l = l) :
    l.dropWhile pyIsSpace = l ∧ rstripWhileL pyIsSpace l = l := by
  have hsuf : l.dropWhile pyIsSpace <:+ l := List.dropWhile_suffix pyIsSpace
  have hpre : pyStripL l <+: l.dropWhile pyIsSpace := rstripWhileL_isPrefix_self _ _
  have hlen1 : (pyStripL l).length ≤ (l.dropWhile pyIsSpace).length :=
    hpre.length_le
  have hlen2 : (l.dropWhile pyIsSpace).length ≤ l.length := hsuf.length_le
  have hlen0 : (pyStripL l).length = l.length := congrArg List.length h
  have hdw : l.dropWhile pyIsSpace = l :=
    hsuf.eq_of_length (by omega)
  refine ⟨hdw, ?_⟩
  have : pyStripL l = rstripWhileL pyIsSpace l := by
    unfold pyStripL
    rw [hdw]
  rwa [this] at h

/-! ## Claim theorems -/

/-- C1, counterexample: with `task_owner="Ali, Veli, Can"` and
`participants=None`, normalization yields `task_owner="Ali"` but
`participants` stays `None` — the remaining comma tokens are NOT turned into
`participants=["Veli","Can"]` as the claim states. -/
theorem c1_counterexample :
    (SendMessageInput.validate "Görev" "Özet" "Problem" "2 Saat" "general"
      (some "Ali, Veli, Can") none none none).map
        (fun m => (m.task_owner, m.participants)) = some (some "Ali", none) ∧
    (some (some "Ali", (none : Option (List String)))) ≠
      some (some "Ali", some ["Veli", "Can"]) := by
  constructor
  · rfl
  · decide

/-- C1, amended: for a raw `task_owner` string containing a comma whose
first comma token is non-empty after stripping, and with no explicit
participants supplied, normalization keeps only that first token (stripped,
title-cased) as `task_owner` and silently discards the remaining tokens:
`participants` remains absent. -/
theorem c1_amended (t s p e d v : String) (m : SendMessageInput)
    (hcomma : ',' ∈ v.data)
    (hf : pyStrip ((pySplitComma v).headD "") ≠ "")
    (hm : SendMessageInput.validate t s p e d (some v) none none none = some m) :
    m.task_owner = some (pyTitle (pyStrip ((pySplitComma v).headD ""))) ∧
    m.participants = none := by
  obtain ⟨h1, h2, -⟩ := validate_eq_some hm
  have how : normalize_task_owner (some v)
      = some (pyTitle (pyStrip ((pySplitComma v).headD ""))) := by
    simp only [normalize_task_owner, if_neg hf]
  refine ⟨h1.trans how, ?_⟩
  rw [h2, how]
  rfl

/-- C1 amended, witness at `task_owner="Ali, Veli, Can"`. -/
theorem c1_amended_witness :
    (SendMessageInput.validate "Görev" "Özet" "Problem" "2 Saat" "general"
        (some "Ali, Veli, Can") none none none =
      some ⟨"Görev", "Özet", "Problem", "2 Saat", "general", some "Ali",
        none, none, none⟩) ∧
    (some "Ali" = some (pyTitle (pyStrip ((pySplitComma "Ali, Veli, Can").headD ""))) ∧
      (none : Option (List String)) = none) := by
  refine ⟨by rfl, ?_⟩
  have h := c1_amended "Görev" "Özet" "Problem" "2 Saat" "general" "Ali, Veli, Can"
    ⟨"Görev", "Özet", "Problem", "2 Saat", "general", some "Ali", none, none, none⟩
    (by decide) (by decide) (by rfl)
  exact ⟨h.1.symm ▸ rfl, h.2⟩

/-- C2: after normalization of a `SendMessageInput`, the task owner (when
present) is never a member of the participants: every participant entry
exactly equal to the owner is filtered out, and if that filtering empties
the list the field becomes `None` rather than `[]`. -/
theorem c2_owner_excluded (t s p e d : String) (ow : Option String)
    (pr : Option RawParticipants) (st : Option (List SolutionStep))
    (cr : Option (List String)) (m : SendMessageInput) (o : String)
    (hm : SendMessageInput.validate t s p e d ow pr st cr = some m)
    (ho : m.task_owner = some o) :
    o ∉ m.participants.getD [] ∧
    m.participants = (normalize_participants pr).bind (fun ps =>
      let ps2 := ps.filter (fun x => x ≠ o)
      if ps2 = [] then none else some ps2) := by
  obtain ⟨h1, h2, -⟩ := validate_eq_some hm
  have hno : normalize_task_owner ow = some o := h1.symm.trans ho
  have hne : o ≠ "" := normalize_task_owner_nonempty hno
  rw [h2, hno]
  cases hpr : normalize_participants pr with
  | none => simp [ensure_no_task_owner_in_participants]
  | some ps =>
    have hps : ps ≠ [] := normalize_participants_ne_nil hpr
    have hguard : o ≠ "" ∧ ps ≠ [] := ⟨hne, hps⟩
    have hE : ensure_no_task_owner_in_participants (some o) (some ps) =
        (if ps.filter (fun x => x ≠ o) = [] then none
         else some (ps.filter (fun x => x ≠ o))) := by
      simp only [ensure_no_task_owner_in_participants]
      rw [if_pos hguard]
    rw [hE]
    refine ⟨?_, rfl⟩
    by_cases hf : ps.filter (fun x => x ≠ o) = []
    · rw [if_pos hf]
      simp
    · rw [if_neg hf]
      simp only [Option.getD_some]
      intro hmem
      have hxx := (List.mem_filter.mp hmem).2
      simp at hxx

/-- C2, witness: owner `"Ali"` supplied together with participants
`["Ali", "Veli"]`. -/
theorem c2_owner_excluded_witness :
    "Ali" ∉ (some ["Veli"] : Option (List String)).getD [] ∧
    (some ["Veli"] : Option (List String)) =
      (normalize_participants (some (.ofList ["Ali", "Veli"]))).bind (fun ps =>
        let ps2 := ps.filter (fun x => x ≠ "Ali")
        if ps2 = [] then none else some ps2) := by
  have h := c2_owner_excluded "T" "S" "P" "2 Saat" "general" (some "Ali")
    (some (.ofList ["Ali", "Veli"])) none none
    ⟨"T", "S", "P", "2 Saat", "general", some "Ali", some ["Veli"], none, none⟩
    "Ali" (by rfl) (by rfl)
  exact h

/-- C10: when the first comma token of the raw `task_owner` is empty after
stripping, the whole raw value is discarded — the validated record is the
one built with no owner at all (so the remaining tokens are silently
dropped); otherwise the owner is exactly the first token, stripped and
title-cased. -/
theorem c10_owner_first_token (t s p e d v : String)
    (pr : Option RawParticipants) (st : Option (List SolutionStep))
    (cr : Option (List String)) :
    (pyStrip ((pySplitComma v).headD "") = "" →
      SendMessageInput.validate t s p e d (some v) pr st cr =
        SendMessageInput.validate t s p e d none pr st cr) ∧
    (pyStrip ((pySplitComma v).headD "") ≠ "" →
      normalize_task_owner (some v) =
        some (pyTitle (pyStrip ((pySplitComma v).headD "")))) := by
  constructor
  · intro h
    have how : normalize_task_owner (some v) = normalize_task_owner none := by
      simp only [normalize_task_owner, if_pos h]
    simp only [SendMessageInput.validate, how]
  · intro h
    simp only [normalize_task_owner, if_neg h]

/-- C10, witness at the raw owner `", Ali"` (empty first token) and at
`"  ali , Veli"` (non-empty first token). -/
theorem c10_owner_first_token_witness :
    (SendMessageInput.validate "T" "S" "P" "2 Saat" "general" (some ", Ali")
        none none none =
      SendMessageInput.validate "T" "S" "P" "2 Saat" "general" none none none none) ∧
    normalize_task_owner (some "  ali , Veli") =
      some (pyTitle (pyStrip ((pySplitComma "  ali , Veli").headD ""))) := by
  constructor
  · exact (c10_owner_first_token "T" "S" "P" "2 Saat" "general" ", Ali"
      none none none).1 (by decide)
  · exact (c10_owner_first_token "T" "S" "P" "2 Saat" "general" "  ali , Veli"
      none none none).2 (by decide)

/-- C4: for every known domain key, resolving a task that supplies neither
`analysis_steps` nor `acceptance_criteria` yields exactly the Domain
Catalog's steps (converted field-for-field to `SolutionStep`s) and exactly
its acceptance criteria, in the original order. -/
theorem c4_domain_defaults (m : SendMessageInput) (k : String) (d : Domain)
    (hk : (k, d) ∈ DOMAINS) (hd : m.domain = k)
    (hs : m.analysis_steps = none) (hc : m.acceptance_criteria = none) :
    m.resolved_steps =
      some (d.analysis_steps.map (fun s => ⟨s.title, s.detail⟩)) ∧
    m.resolved_criteria = d.acceptance_criteria := by
  fin_cases hk <;>
    exact ⟨by simp only [SendMessageInput.resolved_steps,
        SendMessageInput.resolved_domain, hs, hd]; decide,
      by simp only [SendMessageInput.resolved_criteria,
        SendMessageInput.resolved_domain, hc, hd]; decide⟩

/-- C4, witness at the `backend` domain. -/
theorem c4_domain_defaults_witness :
    (⟨"T", "S", "P", "2 Saat", "backend", none, none, none, none⟩ :
        SendMessageInput).resolved_steps =
      some ((DOMAINS.headD ("", generalDomain)).2.analysis_steps.map
        (fun s => ⟨s.title, s.detail⟩)) ∧
    (⟨"T", "S", "P", "2 Saat", "backend", none, none, none, none⟩ :
        SendMessageInput).resolved_criteria =
      (DOMAINS.headD ("", generalDomain)).2.acceptance_criteria :=
  c4_domain_defaults _ "backend" _ (by decide) rfl rfl rfl

/-- C5: title normalization is a no-op on already-normalized actions — when
the preprocessed action (trimmed, trailing punctuation removed) already ends
case-insensitively with one of the canonical future-tense suffixes, the
action is left unchanged by `format_title`, and running `format_title`
(with no added prefix) on its own output changes nothing. -/
theorem c5_title_idempotent (action project domain : String)
    (h : hasValidSuffix (preprocessAction action) = true) :
    format_title action project domain
      = titleJoin project domain (preprocessAction action) ∧
    format_title (format_title action "" "general") "" "general"
      = format_title action "" "general" := by
  have h1 : ∀ p d, format_title action p d
      = titleJoin p d (preprocessAction action) := by
    intro p d
    show titleJoin p d (if hasValidSuffix (preprocessAction action) = true
      then preprocessAction action
      else nominalize_to_future (preprocessAction action))
      = titleJoin p d (preprocessAction action)
    rw [if_pos h]
  refine ⟨h1 project domain, ?_⟩
  have e1 : format_title action "" "general" = preprocessAction action :=
    (h1 "" "general").trans rfl
  rw [e1]
  show titleJoin "" "general"
      (if hasValidSuffix (preprocessAction (preprocessAction action)) = true
       then preprocessAction (preprocessAction action)
       else nominalize_to_future (preprocessAction (preprocessAction action)))
    = preprocessAction action
  rw [preprocessAction_idem h, if_pos h]
  rfl

/-- C5, witness at the already-normalized action `"Rapor Test Edilecek."`. -/
theorem c5_title_idempotent_witness :
    format_title "Rapor Test Edilecek." " Proje " "backend"
      = titleJoin " Proje " "backend" (preprocessAction "Rapor Test Edilecek.") ∧
    format_title (format_title "Rapor Test Edilecek." "" "general") "" "general"
      = format_title "Rapor Test Edilecek." "" "general" :=
  c5_title_idempotent "Rapor Test Edilecek." " Proje " "backend" (by decide)

/-- C6: when the preprocessed action does not already end in a canonical
future-tense suffix, `format_title` rewrites it with
`_nominalize_to_future`'s ordered, case-insensitive, first-match-wins rule
table (the trailing verbal-noun suffix is replaced by its future-tense
counterpart), appends `" Yapılacak"` exactly when no rule matches, and in
particular maps the title `"Ödeme API İnceleme"` with domain `"backend"` to
`"Backend: Ödeme API İncelenecek"`. -/
theorem c6_rewrite_rules (action project domain : String)
    (h : hasValidSuffix (preprocessAction action) = false) :
    format_title action project domain
      = titleJoin project domain (nominalize_to_future (preprocessAction action)) ∧
    (replacementRules.find?
        (fun r => endsWithRegexCI (preprocessAction action) r.1) = none →
      nominalize_to_future (preprocessAction action)
        = preprocessAction action ++ " Yapılacak") ∧
    format_title "Ödeme API İnceleme" "" "backend"
      = "Backend: Ödeme API İncelenecek" := by
  refine ⟨?_, ?_, by decide⟩
  · show titleJoin project domain (if hasValidSuffix (preprocessAction action) = true
      then preprocessAction action
      else nominalize_to_future (preprocessAction action))
      = titleJoin project domain (nominalize_to_future (preprocessAction action))
    rw [h]
    simp only [Bool.false_eq_true, if_false]
  · intro hf
    unfold nominalize_to_future
    rw [hf]

/-- C6, witness at the scenario input `"Ödeme API İnceleme"` and, for the
fallback conjunct, at the rule-free action `"Sunucu Bakımı"`. -/
theorem c6_rewrite_rules_witness :
    (format_title "Ödeme API İnceleme" "" "backend"
      = titleJoin "" "backend" (nominalize_to_future
          (preprocessAction "Ödeme API İnceleme"))) ∧
    (nominalize_to_future (preprocessAction "Sunucu Bakımı")
      = preprocessAction "Sunucu Bakımı" ++ " Yapılacak") := by
  constructor
  · exact (c6_rewrite_rules "Ödeme API İnceleme" "" "backend" (by decide)).1
  · exact (c6_rewrite_rules "Sunucu Bakımı" "" "general" (by decide)).2.1 (by decide)

/-- C7: with an unset or whitespace-only webhook URL, the send reports
`success=false` with `http_status=None` and a message containing
`"not set"`, and no network call is issued: the outcome flag is `false` and
the result does not depend on what the transport would have answered. -/
theorem c7_unset_webhook (envUrl : String) (o1 o2 : HttpOutcome)
    (h : pyStrip envUrl = "") :
    post_to_webhook envUrl o1 =
      (SendMessageResult.build false "GOOGLE_CHAT_WEBHOOK_URL is not set" none,
        false) ∧
    post_to_webhook envUrl o1 = post_to_webhook envUrl o2 ∧
    (post_to_webhook envUrl o1).1.map
        (fun r => (r.success, r.http_status, containsSub r.message "not set"))
      = some (false, none, true) ∧
    (post_to_webhook envUrl o1).2 = false := by
  have e : ∀ oo : HttpOutcome, post_to_webhook envUrl oo =
      (SendMessageResult.build false "GOOGLE_CHAT_WEBHOOK_URL is not set" none,
        false) := by
    intro oo
    unfold post_to_webhook
    rw [if_pos h]
  refine ⟨e o1, (e o1).trans (e o2).symm, ?_, ?_⟩
  · rw [e o1]
    decide
  · rw [e o1]

/-- C7, witness at the empty URL. -/
theorem c7_unset_webhook_witness :
    (post_to_webhook "" (.response 200 "ok") =
      (SendMessageResult.build false "GOOGLE_CHAT_WEBHOOK_URL is not set" none,
        false)) ∧
    (post_to_webhook "" (.response 200 "ok")
      = post_to_webhook "" (.requestError "boom")) ∧
    ((post_to_webhook "" (.response 200 "ok")).1.map
        (fun r => (r.success, r.http_status, containsSub r.message "not set"))
      = some (false, none, true)) ∧
    (post_to_webhook "" (.response 200 "ok")).2 = false :=
  c7_unset_webhook "" (.response 200 "ok") (.requestError "boom") (by decide)

theorem data_eq_nil_iff {s : String} (h : s.data = []) : s = "" := by
  cases s with
  | mk d => cases h; rfl

/-- Decomposition of the stripped error message
`("HTTP " + str(status) + ": " + body).strip()`: it always keeps the
`"HTTP "` prefix and the status digits, followed by a non-empty tail, and
when the body survives right-stripping unchanged the tail is exactly
`": "` followed by the body. -/
theorem http_msg_strip (st : Nat) (body : String) :
    ∃ tail : List Char,
      pyStripL ("HTTP " ++ toString st ++ ": " ++ body).data
        = "HTTP ".data ++ (toString st).data ++ tail ∧ tail ≠ [] ∧
      (rstripWhileL pyIsSpace body.data = body.data → body.data ≠ [] →
        tail = ": ".data ++ body.data) := by
  have hdata : ("HTTP " ++ toString st ++ ": " ++ body).data
      = ("HTTP ".data ++ (toString st).data ++ ": ".data) ++ body.data := by
    rw [String.data_append, String.data_append, String.data_append]
  have hH : ∀ c : Char,
      ((("HTTP ".data ++ (toString st).data ++ ": ".data) ++ body.data).head?
        = some c) → pyIsSpace c = false := by
    intro c hc
    have hHd : ((("HTTP ".data ++ (toString st).data ++ ": ".data) ++
        body.data)).head? = some 'H' := rfl
    rw [hHd] at hc
    cases hc
    decide
  have hstrip : pyStripL ("HTTP " ++ toString st ++ ": " ++ body).data
      = rstripWhileL pyIsSpace
        (("HTTP ".data ++ (toString st).data ++ ": ".data) ++ body.data) := by
    rw [hdata]
    unfold pyStripL
    rw [dropWhile_eq_self_of_head _ _ hH]
  by_cases hb : rstripWhileL pyIsSpace body.data = []
  · refine ⟨[':'], ?_, List.cons_ne_nil _ _, ?_⟩
    · rw [hstrip, rstripWhileL_append_of_eq_nil _ hb]
      have h2 : rstripWhileL pyIsSpace (": ".data) = [':'] := by decide
      have h3 : rstripWhileL pyIsSpace
          (("HTTP ".data ++ (toString st).data) ++ ": ".data)
          = ("HTTP ".data ++ (toString st).data) ++ [':'] := by
        rw [rstripWhileL_append_of_ne_nil _
          (by rw [h2]; exact List.cons_ne_nil _ _), h2]
      exact h3
    · intro hsb hne
      rw [hsb] at hb
      exact absurd hb hne
  · refine ⟨": ".data ++ rstripWhileL pyIsSpace body.data,
      ?_, List.cons_ne_nil _ _, ?_⟩
    · rw [hstrip, rstripWhileL_append_of_ne_nil _ hb, List.append_assoc]
    · intro hsb _
      rw [hsb]

/-- C8, counterexample: a 500 response whose body carries trailing
whitespace (`"oops "`).  The stored message is stripped by the
`SendMessageResult` validator, so it does NOT contain the response body
verbatim, against the claim's universal statement. -/
theorem c8_counterexample :
    (post_to_webhook "http://x" (.response 500 "oops ")).1.map
        (fun r => (r.success, r.http_status, r.message,
          containsSub r.message "500", containsSub r.message "oops "))
      = some (false, some 500, "HTTP 500: oops", true, false) := by decide

/-- C8, amended: for every non-2xx response, the send reports
`success=false` with `http_status` equal to the response status and the
message `"HTTP <status>: <body>"` stripped of surrounding whitespace — so
the message always contains the status code, and contains the body whenever
the body carries no surrounding whitespace. -/
theorem c8_amended (envUrl : String) (st : Nat) (body : String)
    (hu : pyStrip envUrl ≠ "") (hs : is2xx st = false) :
    (post_to_webhook envUrl (.response st body)).2 = true ∧
    (post_to_webhook envUrl (.response st body)).1 =
      SendMessageResult.build false ("HTTP " ++ toString st ++ ": " ++ body)
        (some st) ∧
    (post_to_webhook envUrl (.response st body)).1.map
        (fun r => (r.success, r.http_status)) = some (false, some st) ∧
    (post_to_webhook envUrl (.response st body)).1.map
        (fun r => containsSub r.message (toString st)) = some true ∧
    (pyStrip body = body →
      (post_to_webhook envUrl (.response st body)).1.map
        (fun r => containsSub r.message body) = some true) := by
  have e : post_to_webhook envUrl (.response st body)
      = (SendMessageResult.build false ("HTTP " ++ toString st ++ ": " ++ body)
          (some st), true) := by
    unfold post_to_webhook
    rw [if_neg hu]
    show (if is2xx st = true then _ else _) = _
    rw [hs]
    simp only [Bool.false_eq_true, if_false]
  obtain ⟨tail, htail, htne, htbody⟩ := http_msg_strip st body
  have hmsgne : pyStrip ("HTTP " ++ toString st ++ ": " ++ body) ≠ "" := by
    intro hx
    have hd := congrArg String.data hx
    rw [show (pyStrip ("HTTP " ++ toString st ++ ": " ++ body)).data
      = pyStripL ("HTTP " ++ toString st ++ ": " ++ body).data from rfl,
      htail] at hd
    exact List.noConfusion hd
  have hbuild : SendMessageResult.build false
      ("HTTP " ++ toString st ++ ": " ++ body) (some st)
      = some ⟨false, pyStrip ("HTTP " ++ toString st ++ ": " ++ body),
          some st⟩ := by
    unfold SendMessageResult.build validateField
    show Option.map _ (if pyStrip ("HTTP " ++ toString st ++ ": " ++ body) = ""
      then none
      else some (pyStrip ("HTTP " ++ toString st ++ ": " ++ body))) = _
    rw [if_neg hmsgne]
    rfl
  refine ⟨by rw [e], by rw [e], ?_, ?_, ?_⟩
  · rw [e]
    show (SendMessageResult.build false ("HTTP " ++ toString st ++ ": " ++ body)
      (some st)).map _ = _
    rw [hbuild]
    rfl
  · rw [e]
    show (SendMessageResult.build false ("HTTP " ++ toString st ++ ": " ++ body)
      (some st)).map _ = _
    rw [hbuild]
    show some (containsSub
      (pyStrip ("HTTP " ++ toString st ++ ": " ++ body)) (toString st)) = _
    have hcc : containsSub (pyStrip ("HTTP " ++ toString st ++ ": " ++ body))
        (toString st) = true := by
      show containsSub
        ⟨pyStripL ("HTTP " ++ toString st ++ ": " ++ body).data⟩ (toString st)
          = true
      rw [htail]
      exact containsSub_at "HTTP ".data (toString st).data tail
    rw [hcc]
  · intro hps
    rw [e]
    show (SendMessageResult.build false ("HTTP " ++ toString st ++ ": " ++ body)
      (some st)).map _ = _
    rw [hbuild]
    show some (containsSub
      (pyStrip ("HTTP " ++ toString st ++ ": " ++ body)) body) = _
    by_cases hbe : body = ""
    · subst hbe
      have hcc : containsSub
          (pyStrip ("HTTP " ++ toString st ++ ": " ++ "")) "" = true := by
        show containsSub
          ⟨[] ++ [] ++ pyStripL ("HTTP " ++ toString st ++ ": " ++ "").data⟩
            ⟨[]⟩ = true
        exact containsSub_at [] []
          (pyStripL ("HTTP " ++ toString st ++ ": " ++ "").data)
      rw [hcc]
    · have hbd : body.data ≠ [] := fun hx => hbe (data_eq_nil_iff hx)
      have hparts := pyStripL_eq_self_parts
        (show pyStripL body.data = body.data from congrArg String.data hps)
      have ht2 : tail = ": ".data ++ body.data := htbody hparts.2 hbd
      have hsh : pyStripL ("HTTP " ++ toString st ++ ": " ++ body).data
          = ("HTTP ".data ++ (toString st).data ++ ": ".data) ++
              body.data ++ [] := by
        rw [htail, ht2, List.append_nil, List.append_assoc,
          List.append_assoc, List.append_assoc]
      have hcc : containsSub (pyStrip ("HTTP " ++ toString st ++ ": " ++ body))
          body = true := by
        show containsSub
          ⟨pyStripL ("HTTP " ++ toString st ++ ": " ++ body).data⟩ ⟨body.data⟩
            = true
        rw [hsh]
        exact containsSub_at _ _ _
      rw [hcc]

/-- C8 amended, witness at status 404 with body `"missing"`. -/
theorem c8_amended_witness :
    ((post_to_webhook "http://x" (.response 404 "missing")).2 = true ∧
    (post_to_webhook "http://x" (.response 404 "missing")).1 =
      SendMessageResult.build false ("HTTP " ++ toString 404 ++ ": " ++ "missing")
        (some 404) ∧
    (post_to_webhook "http://x" (.response 404 "missing")).1.map
        (fun r => (r.success, r.http_status)) = some (false, some 404) ∧
    (post_to_webhook "http://x" (.response 404 "missing")).1.map
        (fun r => containsSub r.message (toString 404)) = some true ∧
    (pyStrip "missing" = "missing" →
      (post_to_webhook "http://x" (.response 404 "missing")).1.map
        (fun r => containsSub r.message "missing") = some true)) :=
  c8_amended "http://x" 404 "missing" (by decide) (by decide)

/-- C3, the defect: `server.build_cards_payload` embeds the user-controlled
title in the card header verbatim — for the title `"<b>x</b>"` the rendered
header carries the raw markup, not its HTML-escaped form — while the
parallel `formatter.build_cards_payload` does escape the header title as
the spec requires. -/
theorem c3_header_title_unescaped :
    (Server.build_cards_payload
        ⟨"<b>x</b>", "S", "P", "2 Saat", "general", none, none, none, none⟩).map
      (fun p => p.cards.map (fun c => c.header.title)) = some ["<b>x</b>"] ∧
    (Formatter.build_cards_payload
        ⟨"<b>x</b>", "S", "P", "2 Saat", "general", none, none, none, none⟩
        none).map
      (fun p => p.cards.map (fun c => c.header.title))
        = some [htmlEscape "<b>x</b>"] ∧
    htmlEscape "<b>x</b>" = "&lt;b&gt;x&lt;/b&gt;" ∧
    ("<b>x</b>" : String) ≠ "&lt;b&gt;x&lt;/b&gt;" :=
  ⟨rfl, rfl, rfl, by decide⟩

/-- C9: card rendering is a deterministic pure function of the Task Record
(and, for the formatter variant, of the optional rich description) — in this
embedding both renderers are plain functions consulting no other state, so
field-for-field equal inputs produce identical documents. -/
theorem c9_render_deterministic (r1 r2 : SendMessageInput)
    (d1 d2 : Option TaskDescription) (hr : r1 = r2) (hd : d1 = d2) :
    Server.build_cards_payload r1 = Server.build_cards_payload r2 ∧
    Formatter.build_cards_payload r1 d1 = Formatter.build_cards_payload r2 d2 := by
  subst hr
  subst hd
  exact ⟨rfl, rfl⟩

/-- C9, witness at a concrete record. -/
theorem c9_render_deterministic_witness :
    Server.build_cards_payload
        ⟨"T", "S", "P", "2 Saat", "backend", some "Ali", some ["Veli"],
          none, none⟩
      = Server.build_cards_payload
        ⟨"T", "S", "P", "2 Saat", "backend", some "Ali", some ["Veli"],
          none, none⟩ ∧
    Formatter.build_cards_payload
        ⟨"T", "S", "P", "2 Saat", "backend", some "Ali", some ["Veli"],
          none, none⟩ none
      = Formatter.build_cards_payload
        ⟨"T", "S", "P", "2 Saat", "backend", some "Ali", some ["Veli"],
          none, none⟩ none :=
  c9_render_deterministic _ _ _ _ rfl rfl

end TaskMessager
